import Mathlib

/-!
# Verification of the Fill Rate Dashboard (`src/app.py`)

A shallow embedding of the data-handling core of the single-file Streamlit
dashboard `src/app.py`.  The dashboard loads a spreadsheet into a pandas
DataFrame, renames columns, coerces numeric columns, drops rows with a null
`Category`, applies sidebar filters, computes fill-rate KPIs, and renders
grouped aggregations.

Modelling conventions:
* a DataFrame row is a record of `Option`-valued cells (`none` models a
  missing value, pandas `NaN`/`NaT`);
* numeric cells are rationals (`ℚ`), dates are integers (a day index on
  which `≤` mirrors timestamp comparison);
* pandas boolean-mask filtering is `List.filter`, which preserves row order;
* pandas `sum`/`mean` skip missing values (`List.filterMap` then fold), the
  sum of an empty column is `0`, the mean of an empty column is missing;
* `Except String` models a raised-and-caught Python exception.
-/

namespace Dashboard

/-- One row of the working DataFrame, after the column renaming of
`src/app.py` lines 20-36.  Each cell is optional: `none` is pandas `NaN`
(categorical/numeric columns) or `NaT` (the `PO Date` column). -/
structure Row where
  category : Option String
  manufacturer : Option String
  warehouse : Option String
  region : Option String
  vendor : Option String
  poDate : Option Int
  poQty : Option ℚ
  grnQty : Option ℚ
  qfr : Option ℚ
  lfr : Option ℚ
deriving DecidableEq, Repr

/-- Membership test `Series.isin(sel)` on an optional cell: a missing value is never a
member, a present value is tested for list membership. -/
def memOpt (o : Option String) (sel : List String) : Bool :=
  match o with
  | some s => sel.contains s
  | none => false

/-- The date-range mask of `src/app.py` line 84:
`(d >= start) & (d <= end)`; comparison with `NaT` is `False`. -/
def dateBetween (d : Option Int) (s e : Int) : Bool :=
  match d with
  | some x => decide (s ≤ x) && decide (x ≤ e)
  | none => false

/-- Model of `df.dropna(subset=['Category'])` (`src/app.py` line 43): keep exactly
the rows whose `Category` is present. -/
def dropnaCategory (rows : List Row) : List Row :=
  rows.filter (fun r => r.category.isSome)

/-- Stage `filtered_df = df[df['Category'].isin(selected_categories)]`
(`src/app.py` line 71).  Applied unconditionally. -/
def catStage (sel : List String) (rows : List Row) : List Row :=
  rows.filter (fun r => memOpt r.category sel)

/-- Stage `if selected_manu: filtered_df = filtered_df[...isin(selected_manu)]`
(`src/app.py` lines 73-74).  An empty selection is falsy, so the filter is
skipped. -/
def manuStage (sel : List String) (rows : List Row) : List Row :=
  if sel = [] then rows else rows.filter (fun r => memOpt r.manufacturer sel)

/-- Stage `if selected_wh: filtered_df = filtered_df[...isin(selected_wh)]`
(`src/app.py` lines 76-77). -/
def whStage (sel : List String) (rows : List Row) : List Row :=
  if sel = [] then rows else rows.filter (fun r => memOpt r.warehouse sel)

/-- Stage `if 'Region' in df.columns: filtered_df = filtered_df[...isin(selected_regions)]`
(`src/app.py` lines 79-80).  Applied whenever the column is present,
whatever the selection. -/
def regionStage (hasRegion : Bool) (sel : List String) (rows : List Row) : List Row :=
  if hasRegion then rows.filter (fun r => memOpt r.region sel) else rows

/-- Stage `if selected_date and isinstance(selected_date, list) and len(selected_date) == 2`
(`src/app.py` lines 82-84): the date mask is applied only when a
two-element range is selected, modelled by `some (start, end)`. -/
def dateStage (dr : Option (Int × Int)) (rows : List Row) : List Row :=
  match dr with
  | some (s, e) => rows.filter (fun r => dateBetween r.poDate s e)
  | none => rows

/-- The full filter pipeline of `src/app.py` lines 71-84, in source order:
category, manufacturer, warehouse, region, date. -/
def filtered_df (hasRegion : Bool) (rows : List Row)
    (selCats selManu selWh selRegions : List String)
    (dr : Option (Int × Int)) : List Row :=
  dateStage dr (regionStage hasRegion selRegions
    (whStage selWh (manuStage selManu (catStage selCats rows))))

/-- KPI `total_po = filtered_df['PO Qty'].sum()` (`src/app.py` line 86):
pandas `sum` skips missing values and returns `0` on an empty column. -/
def total_po (rows : List Row) : ℚ :=
  (rows.filterMap (fun r => r.poQty)).sum

/-- KPI `total_grn = filtered_df['GRN Qty'].sum()` (`src/app.py` line 87). -/
def total_grn (rows : List Row) : ℚ :=
  (rows.filterMap (fun r => r.grnQty)).sum

/-- KPI `fill_rate = (total_grn / total_po) * 100 if total_po > 0 else 0`
(`src/app.py` line 88). -/
def fill_rate (rows : List Row) : ℚ :=
  if 0 < total_po rows then (total_grn rows / total_po rows) * 100 else 0

/-! ## Numeric coercion (`pd.to_numeric(col, errors='coerce')`, lines 38-41)

`pd.to_numeric` with `errors='coerce'` parses a decimal literal and turns
any non-numeric string (including one with a percent sign) into a missing
value.  The model below covers optionally signed decimal literals; any
character outside digits, one dot and a leading minus makes the parse
fail, exactly as `pd.to_numeric` fails on it. -/

/-- ASCII digit test. -/
def isDigitCh (c : Char) : Bool :=
  decide ('0' ≤ c) && decide (c ≤ '9')

/-- Value of an ASCII digit. -/
def digVal (c : Char) : ℕ :=
  c.toNat - 48

/-- Parse a non-empty all-digit run as a natural number. -/
def parseNatDigits (cs : List Char) : Option ℕ :=
  if cs ≠ [] ∧ cs.all isDigitCh then
    some (cs.foldl (fun n c => 10 * n + digVal c) 0)
  else none

/-- Split a character list at the first dot: integer part and, when a dot
occurs, the remainder after it. -/
def splitDot : List Char → List Char × Option (List Char)
  | [] => ([], none)
  | c :: cs =>
      if c = '.' then ([], some cs)
      else
        let p := splitDot cs
        (c :: p.1, p.2)

/-- Parse an unsigned decimal literal (`"37"`, `"37.5"`). -/
def parseUnsigned (cs : List Char) : Option ℚ :=
  match splitDot cs with
  | (intPart, none) => (parseNatDigits intPart).map (fun n => (n : ℚ))
  | (intPart, some frac) =>
      match parseNatDigits intPart, parseNatDigits frac with
      | some n, some f => some ((n : ℚ) + (f : ℚ) / (10 : ℚ) ^ frac.length)
      | _, _ => none

/-- Model of `pd.to_numeric(s, errors='coerce')` on a string cell: a decimal
literal parses to its value, anything else coerces to missing. -/
def to_numeric (s : String) : Option ℚ :=
  match s.data with
  | [] => none
  | c :: rest =>
      if c = '-' then (parseUnsigned rest).map (fun q => -q)
      else parseUnsigned (c :: rest)

/-! ## Grouping (`groupby(...)` at lines 107 and 124-129)

pandas `groupby` scans the rows, opens a group at a key's first
occurrence and appends each row to its key's group; groups whose key has
a missing component are dropped (`dropna=True` default). -/

/-- Append row `r` to the group of key `k`, opening the group at the end
when the key is new. -/
def addToGroup {κ α : Type} [DecidableEq κ] (k : κ) (r : α) :
    List (κ × List α) → List (κ × List α)
  | [] => [(k, [r])]
  | (k', g) :: rest =>
      if k = k' then (k', g ++ [r]) :: rest
      else (k', g) :: addToGroup k r rest

/-- The scan `groupBy key rows`: the association list of groups built by one scan
of the rows. -/
def groupBy {κ α : Type} [DecidableEq κ] (key : α → κ) (rows : List α) :
    List (κ × List α) :=
  rows.foldl (fun acc r => addToGroup (key r) r acc) []

/-- Lookup of a key in an association list. -/
def lookupG {κ β : Type} [DecidableEq κ] (k : κ) : List (κ × β) → Option β
  | [] => none
  | (k', v) :: rest => if k' = k then some v else lookupG k rest

/-- Wrap a list in `some` when it is non-empty, `none` when it is empty. -/
def someIfNonempty {α : Type} : List α → Option (List α)
  | [] => none
  | a :: l => some (a :: l)

/-- Sum of a numeric column over a group, skipping missing values
(pandas `'sum'`). -/
def sumCol (f : Row → Option ℚ) (g : List Row) : ℚ :=
  (g.filterMap f).sum

/-- Mean of a numeric column over a group, skipping missing values;
missing when no value is present (pandas `'mean'`). -/
def meanCol (f : Row → Option ℚ) (g : List Row) : Option ℚ :=
  let vs := g.filterMap f
  if vs = [] then none else some (vs.sum / (vs.length : ℚ))

/-- Aggregation `df_date = filtered_df.groupby('PO Date')[['PO Qty','GRN Qty']].sum()`
(`src/app.py` line 107): one entry per present `PO Date` value, with the
sums of the two quantity columns; the missing-date group is dropped. -/
def df_date (filtered : List Row) : List (Int × ℚ × ℚ) :=
  (groupBy (fun r => r.poDate) filtered).filterMap (fun p =>
    p.1.map (fun d => (d, sumCol (fun r => r.poQty) p.2, sumCol (fun r => r.grnQty) p.2)))

/-- The grouping key of `src/app.py` line 124: the `(Category, Vendor,
Warehouse)` triple, present only when all three cells are. -/
def keyOf (r : Row) : Option (String × String × String) :=
  match r.category, r.vendor, r.warehouse with
  | some c, some v, some w => some (c, v, w)
  | _, _, _ => none

/-- One row of the vendor/warehouse breakdown table. -/
structure GroupRow where
  category : String
  vendor : String
  warehouse : String
  poQty : ℚ
  grnQty : ℚ
  qfr : Option ℚ
  lfr : Option ℚ
deriving DecidableEq, Repr

/-- The key triple of a breakdown row. -/
def keyG (g : GroupRow) : String × String × String :=
  (g.category, g.vendor, g.warehouse)

/-- The aggregation of `src/app.py` lines 124-131 on one group: sum the
quantities, average `QFR`/`LFR`, then scale the means by 100. -/
def mkGroupRow (k : String × String × String) (g : List Row) : GroupRow :=
  { category := k.1, vendor := k.2.1, warehouse := k.2.2
    poQty := sumCol (fun r => r.poQty) g
    grnQty := sumCol (fun r => r.grnQty) g
    qfr := (meanCol (fun r => r.qfr) g).map (fun q => q * 100)
    lfr := (meanCol (fun r => r.lfr) g).map (fun q => q * 100) }

/-- Aggregation `group_df` (`src/app.py` lines 124-131): group the filtered rows by
`(Category, Vendor, Warehouse)`, aggregate, drop missing-key groups. -/
def group_df (filtered : List Row) : List GroupRow :=
  (groupBy keyOf filtered).filterMap (fun p => p.1.map (fun k => mkGroupRow k p.2))

/-! ## Column presence and the script's error behaviour (lines 14-156) -/

/-- The working DataFrame together with which renamed columns it has.
An uploaded file may lack any of the expected columns. -/
structure DataFrame where
  hasCategory : Bool
  hasManufacturer : Bool
  hasWarehouse : Bool
  hasRegion : Bool
  hasVendor : Bool
  hasPODate : Bool
  hasPOQty : Bool
  hasGRNQty : Bool
  hasQFR : Bool
  hasLFR : Bool
  rows : List Row
deriving DecidableEq, Repr

/-- The column accesses of the script body, in source order, at column
granularity.  `df.dropna(subset=['Category'])` (line 43) and
`df['Category']` (line 49) raise `KeyError` when `Category` is absent;
the Manufacturer/Warehouse/Region/date widgets (lines 52-69) fall back to
empty options when their column is absent, so the corresponding filter is
skipped; `filtered_df['PO Qty'].sum()` (line 86) and
`filtered_df['GRN Qty'].sum()` (line 87) raise `KeyError` when their
column is absent.  The breakdown guard (line 123) checks only that
`Vendor` and `Warehouse` are present, but its `agg` dict (lines 124-129)
then accesses `QFR` and `LFR` unconditionally, so when `Vendor` and
`Warehouse` are present and `QFR` or `LFR` is absent, the aggregation
raises `KeyError`.  A raised `KeyError` is the `Except.error` value the
script-wide handler (line 155) receives. -/
def processTable (df : DataFrame) (selCats selManu selWh selRegions : List String)
    (selDate : Option (Int × Int)) : Except String (List Row × ℚ) :=
  if df.hasCategory = false then Except.error "KeyError: Category"
  else
    let rows := dropnaCategory df.rows
    let manu := if df.hasManufacturer then selManu else []
    let wh := if df.hasWarehouse then selWh else []
    let dr := if df.hasPODate then selDate else none
    let filtered := filtered_df df.hasRegion rows selCats manu wh selRegions dr
    if df.hasPOQty = false then Except.error "KeyError: PO Qty"
    else if df.hasGRNQty = false then Except.error "KeyError: GRN Qty"
    else if df.hasVendor && df.hasWarehouse && (!df.hasQFR || !df.hasLFR) then
      Except.error "KeyError: agg columns QFR/LFR"
    else Except.ok (filtered, fill_rate filtered)

/-- Whether a computation of the script body succeeded. -/
def isOkE {ε α : Type} : Except ε α → Bool
  | Except.ok _ => true
  | Except.error _ => false

/-! ## The exception structure of the script (lines 14-156)

The script body is a sequence of rendering steps inside one `try`.  Every
step is plain except the PDF export (lines 145-153), which sits in its own
nested `try` whose handler emits a warning.  The outer handler (lines
155-156) emits an error box and ends the run. -/

/-- Outcome of one rendering step: it renders an item or raises. -/
inductive StepResult : Type
  | ok (item : String)
  | fail (msg : String)
deriving DecidableEq, Repr

/-- A step of the script body: a plain statement, or the PDF-export step
guarded by its own `try`/`except` (lines 145-153). -/
inductive ScriptStep : Type
  | plain (r : StepResult)
  | pdfGuarded (r : StepResult)
deriving DecidableEq, Repr

/-- What ends up on the page: a rendered item, the outer handler's error
box (`st.error`, line 156), or the PDF handler's warning box
(`st.warning`, line 153). -/
inductive Rendered : Type
  | item (s : String)
  | errorBox (msg : String)
  | warningBox (msg : String)
deriving DecidableEq, Repr

/-- Streamlit renders incrementally: each successful step's output stays
on the page.  A failing plain step transfers control to the outer handler,
which shows the error and ends the run; a failing PDF step only adds a
warning and the run continues. -/
def runScript : List ScriptStep → List Rendered
  | [] => []
  | ScriptStep.plain (StepResult.ok it) :: rest => Rendered.item it :: runScript rest
  | ScriptStep.plain (StepResult.fail m) :: _ => [Rendered.errorBox m]
  | ScriptStep.pdfGuarded (StepResult.ok it) :: rest => Rendered.item it :: runScript rest
  | ScriptStep.pdfGuarded (StepResult.fail m) :: rest => Rendered.warningBox m :: runScript rest

/-- A step that does not raise. -/
def okStep : ScriptStep → Bool
  | ScriptStep.plain (StepResult.ok _) => true
  | ScriptStep.pdfGuarded (StepResult.ok _) => true
  | _ => false

/-- What a step alone puts on the page. -/
def renderOf : ScriptStep → Rendered
  | ScriptStep.plain (StepResult.ok it) => Rendered.item it
  | ScriptStep.plain (StepResult.fail m) => Rendered.errorBox m
  | ScriptStep.pdfGuarded (StepResult.ok it) => Rendered.item it
  | ScriptStep.pdfGuarded (StepResult.fail m) => Rendered.warningBox m

/-! ## Concrete example data for witnesses -/

/-- An example row: category A, manufacturer M, warehouse W, region R,
vendor V, date 3, PO 10, GRN 8, QFR 1, LFR 2. -/
def exRow1 : Row :=
  ⟨some "A", some "M", some "W", some "R", some "V",
   some 3, some 10, some 8, some 1, some 2⟩

/-- A second example row with a different category and a late date. -/
def exRow2 : Row :=
  ⟨some "B", some "M", some "W", some "R", some "V",
   some 20, some 5, some 5, none, none⟩

/-- A row with a missing category, dropped by `dropnaCategory`. -/
def exRow3 : Row :=
  ⟨none, some "M", some "W", some "R", some "V",
   some 4, some 7, some 2, some 3, none⟩

/-- A DataFrame with every expected column except `Manufacturer`. -/
def dfNoManu : DataFrame :=
  ⟨true, false, true, true, true, true, true, true, true, true, [exRow1, exRow2]⟩

/-- A DataFrame missing the `Category` column. -/
def dfNoCat : DataFrame :=
  ⟨false, true, true, true, true, true, true, true, true, true, [exRow1, exRow2]⟩

/-- A DataFrame with `Vendor` and `Warehouse` but missing the `QFR`
column, on which the breakdown aggregation raises. -/
def dfNoQFR : DataFrame :=
  ⟨true, true, true, true, true, true, true, true, false, true, [exRow1]⟩

/-! ## Helper lemmas on filters -/

/-- Composing two boolean-mask filters is one filter with the conjunction,
in application order. -/
theorem filter_comp {α : Type} (p q : α → Bool) (l : List α) :
    (l.filter p).filter q = l.filter (fun a => p a && q a) := by
  induction l with
  | nil => rfl
  | cons a t ih =>
      cases hpa : p a <;> cases hqa : q a <;>
        simp [List.filter_cons, hpa, hqa, ih]

/-- Membership in the empty selection never holds. -/
theorem memOpt_nil (o : Option String) : memOpt o [] = false := by
  cases o <;> rfl

/-- The category filter with an empty selection keeps no row. -/
theorem catStage_nil_sel (rows : List Row) : catStage [] rows = [] := by
  unfold catStage
  induction rows with
  | nil => rfl
  | cons a t ih => simp [List.filter_cons, memOpt_nil, ih]

/-- Every stage maps the empty table to the empty table. -/
theorem manuStage_nil (sel : List String) : manuStage sel [] = [] := by
  unfold manuStage; split <;> rfl

/-- Every stage maps the empty table to the empty table. -/
theorem whStage_nil (sel : List String) : whStage sel [] = [] := by
  unfold whStage; split <;> rfl

/-- Every stage maps the empty table to the empty table. -/
theorem regionStage_nil (hR : Bool) (sel : List String) : regionStage hR sel [] = [] := by
  unfold regionStage; split <;> rfl

/-- Every stage maps the empty table to the empty table. -/
theorem dateStage_nil (dr : Option (Int × Int)) : dateStage dr [] = [] := by
  rcases dr with _ | ⟨s, e⟩ <;> rfl

/-- Rows surviving the category stage come from the input. -/
theorem catStage_subset (sel : List String) (rows : List Row) :
    ∀ r ∈ catStage sel rows, r ∈ rows := by
  intro r h
  exact List.mem_of_mem_filter h

/-- Rows surviving the manufacturer stage come from the input. -/
theorem manuStage_subset (sel : List String) (rows : List Row) :
    ∀ r ∈ manuStage sel rows, r ∈ rows := by
  intro r h
  unfold manuStage at h
  split at h
  · exact h
  · exact List.mem_of_mem_filter h

/-- Rows surviving the warehouse stage come from the input. -/
theorem whStage_subset (sel : List String) (rows : List Row) :
    ∀ r ∈ whStage sel rows, r ∈ rows := by
  intro r h
  unfold whStage at h
  split at h
  · exact h
  · exact List.mem_of_mem_filter h

/-- Rows surviving the region stage come from the input. -/
theorem regionStage_subset (hR : Bool) (sel : List String) (rows : List Row) :
    ∀ r ∈ regionStage hR sel rows, r ∈ rows := by
  intro r h
  unfold regionStage at h
  split at h
  · exact List.mem_of_mem_filter h
  · exact h

/-- Rows surviving the date stage come from the input. -/
theorem dateStage_subset (dr : Option (Int × Int)) (rows : List Row) :
    ∀ r ∈ dateStage dr rows, r ∈ rows := by
  intro r h
  rcases dr with _ | ⟨s, e⟩
  · exact h
  · exact List.mem_of_mem_filter h

/-! ## Claims -/

/-- C1: for every loaded table and non-empty selections of categories,
manufacturers, warehouses and regions, and a two-element date range, the
filtered table is exactly the rows whose `Category`, `Manufacturer`,
`Warehouse` and (when the `Region` column is present) `Region` lie in the
respective selections and whose `PO Date` lies between the range's start
and end inclusive — the conjunction applied in the fixed source order,
with the relative order of surviving rows preserved (it is a single
`List.filter` of the loaded table). -/
theorem C1_filtered_df_conjunction (hR : Bool) (rows : List Row)
    (cats manus whs regs : List String) (s e : Int)
    (hc : cats ≠ []) (hm : manus ≠ []) (hw : whs ≠ []) (hr : regs ≠ []) :
    filtered_df hR rows cats manus whs regs (some (s, e)) =
      rows.filter (fun r =>
        memOpt r.category cats && memOpt r.manufacturer manus &&
        memOpt r.warehouse whs && (if hR then memOpt r.region regs else true) &&
        dateBetween r.poDate s e) := by
  cases hR <;>
    simp [filtered_df, dateStage, regionStage, whStage, manuStage, catStage,
      hm, hw, filter_comp, Bool.and_assoc, Bool.and_comm, Bool.and_left_comm]

/-- Witness for C1 at a concrete table: the pipeline equals the single
conjunctive filter there, and keeps exactly the matching row. -/
theorem C1_witness :
    filtered_df true [exRow1, exRow2] ["A"] ["M"] ["W"] ["R"] (some (0, 10)) = [exRow1] ∧
    filtered_df true [exRow1, exRow2] ["A"] ["M"] ["W"] ["R"] (some (0, 10)) =
      [exRow1, exRow2].filter (fun r =>
        memOpt r.category ["A"] && memOpt r.manufacturer ["M"] &&
        memOpt r.warehouse ["W"] && (if true then memOpt r.region ["R"] else true) &&
        dateBetween r.poDate 0 10) :=
  ⟨by decide,
   C1_filtered_df_conjunction true [exRow1, exRow2] ["A"] ["M"] ["W"] ["R"] 0 10
     (by decide) (by decide) (by decide) (by decide)⟩

/-- C2: whenever the filtered table's total PO quantity is positive, the
Fill Rate KPI is the ratio of total received (`GRN Qty`) to total ordered
(`PO Qty`) quantity over the filtered rows, times 100. -/
theorem C2_fill_rate_ratio (hR : Bool) (rows : List Row)
    (cats manus whs regs : List String) (dr : Option (Int × Int))
    (hpos : 0 < total_po (filtered_df hR rows cats manus whs regs dr)) :
    fill_rate (filtered_df hR rows cats manus whs regs dr) =
      (total_grn (filtered_df hR rows cats manus whs regs dr) /
        total_po (filtered_df hR rows cats manus whs regs dr)) * 100 := by
  unfold fill_rate
  rw [if_pos hpos]

/-- Witness for C2 at a concrete table: total PO is 10, total GRN is 8,
and the KPI is 80. -/
theorem C2_witness :
    0 < total_po (filtered_df true [exRow1, exRow2] ["A"] ["M"] ["W"] ["R"] (some (0, 10))) ∧
    fill_rate (filtered_df true [exRow1, exRow2] ["A"] ["M"] ["W"] ["R"] (some (0, 10))) =
      (total_grn (filtered_df true [exRow1, exRow2] ["A"] ["M"] ["W"] ["R"] (some (0, 10))) /
        total_po (filtered_df true [exRow1, exRow2] ["A"] ["M"] ["W"] ["R"] (some (0, 10)))) * 100 ∧
    fill_rate (filtered_df true [exRow1, exRow2] ["A"] ["M"] ["W"] ["R"] (some (0, 10))) = 80 := by
  have hf : filtered_df true [exRow1, exRow2] ["A"] ["M"] ["W"] ["R"] (some (0, 10)) = [exRow1] := by
    decide
  have hpo : total_po [exRow1] = 10 := by
    have h : List.filterMap (fun r => r.poQty) [exRow1] = [10] := by decide
    simp [total_po, h]
  have hgrn : total_grn [exRow1] = 8 := by
    have h : List.filterMap (fun r => r.grnQty) [exRow1] = [8] := by decide
    simp [total_grn, h]
  have hpos : 0 < total_po (filtered_df true [exRow1, exRow2] ["A"] ["M"] ["W"] ["R"] (some (0, 10))) := by
    rw [hf, hpo]
    norm_num
  refine ⟨hpos, C2_fill_rate_ratio true [exRow1, exRow2] ["A"] ["M"] ["W"] ["R"] (some (0, 10)) hpos, ?_⟩
  rw [hf]
  simp only [fill_rate, hpo, hgrn]
  norm_num

/-- C8: when the total PO quantity of the filtered table is not positive
(zero, negative, or the table is empty), the Fill Rate KPI is 0 — the
division is guarded and the computation total. -/
theorem C8_fill_rate_guard (rows : List Row) (h : total_po rows ≤ 0) :
    fill_rate rows = 0 := by
  unfold fill_rate
  rw [if_neg (not_lt.mpr h)]

/-- Witness for C8: the empty filtered table has total PO 0 and Fill Rate 0. -/
theorem C8_witness : total_po [] ≤ 0 ∧ fill_rate [] = 0 :=
  ⟨by simp [total_po], C8_fill_rate_guard [] (by simp [total_po])⟩

/-- C9: the filter stages are not symmetric in the empty selection — an
empty manufacturer or warehouse selection skips that stage entirely (no
row is removed by it), while an empty category selection empties the
filtered table. -/
theorem C9_empty_selection_asymmetry :
    (∀ rows : List Row, manuStage [] rows = rows) ∧
    (∀ rows : List Row, whStage [] rows = rows) ∧
    (∀ (hR : Bool) (rows : List Row) (manus whs regs : List String)
        (dr : Option (Int × Int)),
      filtered_df hR rows [] manus whs regs dr = []) := by
  refine ⟨fun rows => if_pos rfl, fun rows => if_pos rfl, ?_⟩
  intro hR rows manus whs regs dr
  unfold filtered_df
  rw [catStage_nil_sel, manuStage_nil, whStage_nil, regionStage_nil, dateStage_nil]

/-- C10: every row of the working table has a present `Category` after
loading — rows with a missing `Category` are dropped right after renaming
and the invariant is preserved by every filter stage. -/
theorem C10_category_present (hR : Bool) (rows : List Row)
    (cats manus whs regs : List String) (dr : Option (Int × Int)) :
    ∀ r ∈ filtered_df hR (dropnaCategory rows) cats manus whs regs dr,
      r.category.isSome = true := by
  intro r hmem
  unfold filtered_df at hmem
  have h1 := dateStage_subset dr _ r hmem
  have h2 := regionStage_subset hR regs _ r h1
  have h3 := whStage_subset whs _ r h2
  have h4 := manuStage_subset manus _ r h3
  have h5 := catStage_subset cats _ r h4
  unfold dropnaCategory at h5
  exact (List.mem_filter.mp h5).2

/-- Witness for C10: a concrete surviving row has a present category. -/
theorem C10_witness : exRow1.category.isSome = true :=
  C10_category_present true [exRow1, exRow3] ["A"] ["M"] ["W"] ["R"] (some (0, 10))
    exRow1 (by decide)

/-- C3: if a plain step of the script body raises, the outputs of the
earlier steps stay on the page, the outer handler shows the error text,
and nothing further is rendered; if instead the separately guarded PDF
step raises, only a warning is added and the rest of the script still
renders. -/
theorem C3_exception_guards (pre rest : List ScriptStep) (m : String)
    (hpre : ∀ s ∈ pre, okStep s = true) :
    runScript (pre ++ ScriptStep.plain (StepResult.fail m) :: rest) =
      pre.map renderOf ++ [Rendered.errorBox m] ∧
    runScript (pre ++ ScriptStep.pdfGuarded (StepResult.fail m) :: rest) =
      pre.map renderOf ++ Rendered.warningBox m :: runScript rest := by
  induction pre with
  | nil => exact ⟨rfl, rfl⟩
  | cons a t ih =>
      have ha : okStep a = true := hpre a (List.mem_cons_self a t)
      have ht : ∀ s ∈ t, okStep s = true := fun s hs => hpre s (List.mem_cons_of_mem a hs)
      obtain ⟨ih1, ih2⟩ := ih ht
      cases a with
      | plain r =>
          cases r with
          | ok it => simp [runScript, renderOf, ih1, ih2]
          | fail mm => simp [okStep] at ha
      | pdfGuarded r =>
          cases r with
          | ok it => simp [runScript, renderOf, ih1, ih2]
          | fail mm => simp [okStep] at ha

/-- Witness for C3 on a concrete script: a failing plain step truncates
the page after the error box, a failing PDF step only inserts a warning. -/
theorem C3_witness :
    runScript [ScriptStep.plain (StepResult.ok "title"),
               ScriptStep.plain (StepResult.fail "boom"),
               ScriptStep.plain (StepResult.ok "charts")] =
      [Rendered.item "title", Rendered.errorBox "boom"] ∧
    runScript [ScriptStep.plain (StepResult.ok "title"),
               ScriptStep.pdfGuarded (StepResult.fail "kaleido"),
               ScriptStep.plain (StepResult.ok "charts")] =
      [Rendered.item "title", Rendered.warningBox "kaleido", Rendered.item "charts"] := by
  constructor
  · have h := C3_exception_guards [ScriptStep.plain (StepResult.ok "title")]
      [ScriptStep.plain (StepResult.ok "charts")] "boom" (by decide)
    simpa [renderOf, runScript] using h.1
  · have h := C3_exception_guards [ScriptStep.plain (StepResult.ok "title")]
      [ScriptStep.plain (StepResult.ok "charts")] "kaleido" (by decide)
    simpa [renderOf, runScript] using h.2

/-- C4 is false as stated: a table missing the expected `Manufacturer`
column is processed without any error or halt — the widget options fall
back to empty, the manufacturer filter is skipped, and the page renders. -/
theorem C4_counterexample :
    isOkE (processTable dfNoManu ["A", "B"] ["M"] ["W"] ["R"] (some (0, 30))) = true := by
  decide

/-- C4 amended: a table missing `Category`, `PO Qty` or `GRN Qty` — the
columns the script accesses unconditionally — raises a `KeyError` that
the script-wide guard reports, halting rendering, as does a table that
has `Vendor` and `Warehouse` but lacks `QFR` or `LFR`, which the
breakdown's `agg` dict (lines 124-129) accesses unconditionally inside
the Vendor/Warehouse guard; any other missing optional column
(`Manufacturer`, `Warehouse`, `Region`, `PO Date`, `Vendor`, and
`QFR`/`LFR` outside the breakdown case) leaves the page rendering
without error, the corresponding filter, KPI or section being skipped. -/
theorem C4_required_columns (df : DataFrame)
    (selCats selManu selWh selRegions : List String) (dr : Option (Int × Int)) :
    (df.hasCategory = false →
      processTable df selCats selManu selWh selRegions dr =
        Except.error "KeyError: Category") ∧
    (df.hasCategory = true → df.hasPOQty = false →
      processTable df selCats selManu selWh selRegions dr =
        Except.error "KeyError: PO Qty") ∧
    (df.hasCategory = true → df.hasPOQty = true → df.hasGRNQty = false →
      processTable df selCats selManu selWh selRegions dr =
        Except.error "KeyError: GRN Qty") ∧
    (df.hasCategory = true → df.hasPOQty = true → df.hasGRNQty = true →
      df.hasVendor = true → df.hasWarehouse = true →
      (df.hasQFR = false ∨ df.hasLFR = false) →
      processTable df selCats selManu selWh selRegions dr =
        Except.error "KeyError: agg columns QFR/LFR") ∧
    (df.hasCategory = true → df.hasPOQty = true → df.hasGRNQty = true →
      (df.hasVendor && df.hasWarehouse && (!df.hasQFR || !df.hasLFR)) = false →
      isOkE (processTable df selCats selManu selWh selRegions dr) = true) := by
  refine ⟨fun h1 => ?_, fun h1 h2 => ?_, fun h1 h2 h3 => ?_,
    fun h1 h2 h3 h4 h5 h6 => ?_, fun h1 h2 h3 h4 => ?_⟩
  · simp [processTable, h1]
  · simp [processTable, h1, h2]
  · simp [processTable, h1, h2, h3]
  · rcases h6 with h6 | h6 <;> simp [processTable, h1, h2, h3, h4, h5, h6]
  · simp [processTable, isOkE, h1, h2, h3, h4]

/-- Witness for C4 amended: the concrete table missing `Category` errors,
the table with Vendor and Warehouse but no `QFR` errors in the breakdown
aggregation, and the table missing only `Manufacturer` renders. -/
theorem C4_witness :
    processTable dfNoCat ["A"] ["M"] ["W"] ["R"] none =
      Except.error "KeyError: Category" ∧
    processTable dfNoQFR ["A"] ["M"] ["W"] ["R"] none =
      Except.error "KeyError: agg columns QFR/LFR" ∧
    isOkE (processTable dfNoManu ["A"] ["M"] ["W"] ["R"] none) = true :=
  ⟨(C4_required_columns dfNoCat ["A"] ["M"] ["W"] ["R"] none).1 rfl,
   (C4_required_columns dfNoQFR ["A"] ["M"] ["W"] ["R"] none).2.2.2.1
     rfl rfl rfl rfl rfl (Or.inl rfl),
   (C4_required_columns dfNoManu ["A"] ["M"] ["W"] ["R"] none).2.2.2.2
     rfl rfl rfl rfl⟩

/-- A list containing a non-digit parses to no natural number. -/
theorem parseNatDigits_none_of_mem (cs : List Char) (c : Char)
    (hc : c ∈ cs) (hd : isDigitCh c = false) : parseNatDigits cs = none := by
  unfold parseNatDigits
  rw [if_neg]
  rintro ⟨hne, hall⟩
  have h := List.all_eq_true.mp hall c hc
  rw [hd] at h
  exact Bool.false_ne_true h

/-- Any non-dot character of the input survives `splitDot`, on one side
of the split. -/
theorem splitDot_cases (cs : List Char) (c : Char) (hc : c ∈ cs) (hne : c ≠ '.') :
    c ∈ (splitDot cs).1 ∨ ∃ frac, (splitDot cs).2 = some frac ∧ c ∈ frac := by
  induction cs with
  | nil => cases hc
  | cons a t ih =>
      by_cases ha : a = '.'
      · right
        refine ⟨t, by simp [splitDot, ha], ?_⟩
        rcases List.mem_cons.mp hc with h | h
        · exact absurd (h.trans ha) hne
        · exact h
      · rcases List.mem_cons.mp hc with h | h
        · left
          simp [splitDot, ha, h]
        · rcases ih h with h1 | ⟨frac, h2, h3⟩
          · left
            simp [splitDot, ha]
            exact Or.inr h1
          · right
            exact ⟨frac, by simp [splitDot, ha]; exact h2, h3⟩

/-- A string containing a percent sign is not an unsigned decimal
literal. -/
theorem parseUnsigned_percent (cs : List Char) (hc : '%' ∈ cs) :
    parseUnsigned cs = none := by
  have hd : isDigitCh '%' = false := by decide
  have hcase := splitDot_cases cs '%' hc (by decide)
  rcases hsd : splitDot cs with ⟨intPart, fracOpt⟩
  rw [hsd] at hcase
  rcases fracOpt with _ | frac
  · rcases hcase with h1 | ⟨f, h2, _⟩
    · have h1' : '%' ∈ intPart := h1
      simp [parseUnsigned, hsd, parseNatDigits_none_of_mem intPart '%' h1' hd]
    · simp at h2
  · rcases hcase with h1 | ⟨f, h2, h3⟩
    · have h1' : '%' ∈ intPart := h1
      cases hpf : parseNatDigits frac <;>
        simp [parseUnsigned, hsd, hpf, parseNatDigits_none_of_mem intPart '%' h1' hd]
    · have h2' : (some frac : Option (List Char)) = some f := h2
      have hff : frac = f := Option.some_injective _ h2'
      cases hpi : parseNatDigits intPart <;>
        simp [parseUnsigned, hsd, hpi,
          parseNatDigits_none_of_mem frac '%' (hff ▸ h3) hd]

/-- C6 is false as stated: the load-time coercion
(`pd.to_numeric(..., errors='coerce')`) does not strip a percent sign —
the string `"37.5%"` coerces to a missing value, not to the float 37.5. -/
theorem C6_counterexample :
    to_numeric "37.5%" = none ∧ to_numeric "37.5%" ≠ some (75 / 2) := by
  constructor
  · decide
  · decide

/-- C6 amended: any string containing a percent sign is coerced to a
missing value by the load-time numeric coercion; only a plain decimal
literal such as `"37.5"` round-trips to its numeric value. -/
theorem C6_percent_coerces_to_missing :
    (∀ s : String, '%' ∈ s.data → to_numeric s = none) ∧
    to_numeric "37.5" = some (75 / 2) := by
  constructor
  · intro s hs
    rcases hd : s.data with _ | ⟨c, rest⟩
    · simp [to_numeric, hd]
    · rw [hd] at hs
      by_cases hc : c = '-'
      · have hrest : '%' ∈ rest := by
          rcases List.mem_cons.mp hs with h | h
          · exact absurd (h.trans hc) (by decide)
          · exact h
        simp [to_numeric, hd, hc, parseUnsigned_percent rest hrest]
      · simp [to_numeric, hd, hc, parseUnsigned_percent _ hs]
  · have hd : "37.5".data = ['3', '7', '.', '5'] := rfl
    have hs : splitDot ['3', '7', '.', '5'] = (['3', '7'], some ['5']) := by decide
    have hi : parseNatDigits ['3', '7'] = some 37 := by decide
    have hf : parseNatDigits ['5'] = some 5 := by decide
    have hne : ('3' = '-') = False := eq_false (by decide)
    simp [to_numeric, hd, hne, parseUnsigned, hs, hi, hf]
    norm_num

/-- Witness for C6 amended: `"37.5%"` contains a percent sign and is
coerced to missing. -/
theorem C6_witness : '%' ∈ "37.5%".data ∧ to_numeric "37.5%" = none :=
  ⟨by decide, C6_percent_coerces_to_missing.1 "37.5%" (by decide)⟩

/-! ## Lemmas about `groupBy` -/

/-- Looking up the key just added finds its group extended by the row. -/
theorem lookupG_addToGroup_self {κ α : Type} [DecidableEq κ] (k : κ) (r : α)
    (acc : List (κ × List α)) :
    lookupG k (addToGroup k r acc) = some ((lookupG k acc).getD [] ++ [r]) := by
  induction acc with
  | nil => simp [addToGroup, lookupG]
  | cons p rest ih =>
      obtain ⟨k', g⟩ := p
      by_cases hk : k = k'
      · subst hk
        simp [addToGroup, lookupG]
      · simp [addToGroup, lookupG, hk, Ne.symm hk, ih]

/-- Adding a row under one key leaves every other key's group unchanged. -/
theorem lookupG_addToGroup_ne {κ α : Type} [DecidableEq κ] {k q : κ} (h : q ≠ k) (r : α)
    (acc : List (κ × List α)) :
    lookupG q (addToGroup k r acc) = lookupG q acc := by
  induction acc with
  | nil => simp [addToGroup, lookupG, Ne.symm h]
  | cons p rest ih =>
      obtain ⟨k', g⟩ := p
      by_cases hk : k = k'
      · subst hk
        simp [addToGroup, lookupG, Ne.symm h]
      · simp [addToGroup, lookupG, hk, ih]

/-- The group of `k` after folding the rows into an accumulator: the
accumulator's group for `k` (when any) extended by the rows keyed `k`, in
row order. -/
theorem lookupG_groupBy_go {κ α : Type} [DecidableEq κ] (key : α → κ)
    (rows : List α) (acc : List (κ × List α)) (k : κ) :
    lookupG k (rows.foldl (fun a r => addToGroup (key r) r a) acc) =
      match lookupG k acc with
      | some g => some (g ++ rows.filter (fun r => decide (key r = k)))
      | none => someIfNonempty (rows.filter (fun r => decide (key r = k))) := by
  induction rows generalizing acc with
  | nil => cases h : lookupG k acc <;> simp [h, someIfNonempty]
  | cons r t ih =>
      rw [List.foldl_cons, ih (addToGroup (key r) r acc)]
      by_cases hk : key r = k
      · rw [hk, lookupG_addToGroup_self]
        cases h : lookupG k acc with
        | none =>
            simp [h, List.filter_cons, hk, someIfNonempty]
        | some g =>
            simp [h, List.filter_cons, hk, List.append_assoc]
      · rw [lookupG_addToGroup_ne (Ne.symm hk)]
        cases h : lookupG k acc with
        | none => simp [h, List.filter_cons, hk]
        | some g => simp [h, List.filter_cons, hk]

/-- The group of `k` in `groupBy key rows` is exactly the rows keyed `k`,
when there are any. -/
theorem lookupG_groupBy {κ α : Type} [DecidableEq κ] (key : α → κ)
    (rows : List α) (k : κ) :
    lookupG k (groupBy key rows) =
      someIfNonempty (rows.filter (fun r => decide (key r = k))) := by
  have hgo := lookupG_groupBy_go key rows [] k
  simpa [groupBy, lookupG] using hgo

/-- Adding a row only extends the key list when its key is new, at the
end. -/
theorem addToGroup_keys {κ α : Type} [DecidableEq κ] (k : κ) (r : α)
    (acc : List (κ × List α)) :
    (addToGroup k r acc).map Prod.fst =
      if k ∈ acc.map Prod.fst then acc.map Prod.fst
      else acc.map Prod.fst ++ [k] := by
  induction acc with
  | nil => simp [addToGroup]
  | cons p rest ih =>
      obtain ⟨k', g⟩ := p
      by_cases hk : k = k'
      · subst hk
        simp [addToGroup]
      · by_cases hm : k ∈ rest.map Prod.fst
        · simp [addToGroup, hk, ih, hm]
        · simp [addToGroup, hk, ih, hm]

/-- The keys stay distinct while folding rows into the groups. -/
theorem groupBy_go_keys_nodup {κ α : Type} [DecidableEq κ] (key : α → κ)
    (rows : List α) (acc : List (κ × List α)) (h : (acc.map Prod.fst).Nodup) :
    ((rows.foldl (fun a r => addToGroup (key r) r a) acc).map Prod.fst).Nodup := by
  induction rows generalizing acc with
  | nil => exact h
  | cons r t ih =>
      rw [List.foldl_cons]
      apply ih
      rw [addToGroup_keys]
      by_cases hm : key r ∈ acc.map Prod.fst
      · simp [hm, h]
      · simp [hm, List.nodup_append, h]

/-- The keys of `groupBy` are pairwise distinct. -/
theorem groupBy_keys_nodup {κ α : Type} [DecidableEq κ] (key : α → κ)
    (rows : List α) : ((groupBy key rows).map Prod.fst).Nodup :=
  groupBy_go_keys_nodup key rows [] (by simp)

/-- In an association list with distinct keys, membership determines the
lookup. -/
theorem lookupG_eq_of_mem {κ β : Type} [DecidableEq κ] {l : List (κ × β)}
    (hnd : (l.map Prod.fst).Nodup) {k : κ} {g : β} (h : (k, g) ∈ l) :
    lookupG k l = some g := by
  induction l with
  | nil => cases h
  | cons p rest ih =>
      obtain ⟨k', v⟩ := p
      have hnd' : (k' :: rest.map Prod.fst).Nodup := hnd
      have hnotin : k' ∉ rest.map Prod.fst := (List.nodup_cons.mp hnd').1
      have hrest : (rest.map Prod.fst).Nodup := (List.nodup_cons.mp hnd').2
      rcases List.mem_cons.mp h with h1 | h1
      · have hk : k = k' := congrArg Prod.fst h1
        have hv : g = v := congrArg Prod.snd h1
        subst hk
        subst hv
        simp [lookupG]
      · have hne : k' ≠ k := fun he => hnotin (he ▸ List.mem_map.mpr ⟨(k, g), h1, rfl⟩)
        simp [lookupG, hne, ih hrest h1]

/-- A successful lookup is a member. -/
theorem mem_of_lookupG_eq {κ β : Type} [DecidableEq κ] {l : List (κ × β)} {k : κ} {g : β}
    (h : lookupG k l = some g) : (k, g) ∈ l := by
  induction l with
  | nil => simp [lookupG] at h
  | cons p rest ih =>
      obtain ⟨k', v⟩ := p
      by_cases hk : k' = k
      · subst hk
        simp [lookupG] at h
        subst h
        exact List.mem_cons_self _ _
      · simp [lookupG, hk] at h
        exact List.mem_cons_of_mem _ (ih h)

/-- Each group of `groupBy` is the filter of the input by its key, in
input order. -/
theorem groupBy_mem_eq_filter {κ α : Type} [DecidableEq κ] (key : α → κ)
    (rows : List α) (p : κ × List α) (hp : p ∈ groupBy key rows) :
    p.2 = rows.filter (fun r => decide (key r = p.1)) := by
  have hnd := groupBy_keys_nodup key rows
  have hl : lookupG p.1 (groupBy key rows) = some p.2 := by
    obtain ⟨k, g⟩ := p
    exact lookupG_eq_of_mem hnd hp
  rw [lookupG_groupBy] at hl
  rcases hf : rows.filter (fun r => decide (key r = p.1)) with _ | ⟨a, l⟩
  · rw [hf] at hl
    simp [someIfNonempty] at hl
  · rw [hf] at hl
    simp only [someIfNonempty, Option.some.injEq] at hl
    exact hl.symm

/-- A key occurs among the groups exactly when some row bears it. -/
theorem groupBy_key_mem_iff {κ α : Type} [DecidableEq κ] (key : α → κ)
    (rows : List α) (k : κ) :
    (∃ g, (k, g) ∈ groupBy key rows) ↔ ∃ r ∈ rows, key r = k := by
  constructor
  · rintro ⟨g, hg⟩
    have hl : lookupG k (groupBy key rows) = some g :=
      lookupG_eq_of_mem (groupBy_keys_nodup key rows) hg
    rw [lookupG_groupBy] at hl
    rcases hf : rows.filter (fun r => decide (key r = k)) with _ | ⟨r, l⟩
    · rw [hf] at hl
      simp [someIfNonempty] at hl
    · have hr : r ∈ rows.filter (fun r => decide (key r = k)) := by
        rw [hf]
        exact List.mem_cons_self _ _
      obtain ⟨h1, h2⟩ := List.mem_filter.mp hr
      exact ⟨r, h1, of_decide_eq_true h2⟩
  · rintro ⟨r, hr, hk⟩
    have hmem : r ∈ rows.filter (fun r => decide (key r = k)) :=
      List.mem_filter.mpr ⟨hr, decide_eq_true hk⟩
    refine ⟨rows.filter (fun r => decide (key r = k)), ?_⟩
    apply mem_of_lookupG_eq
    rw [lookupG_groupBy]
    rcases hf : rows.filter (fun r => decide (key r = k)) with _ | ⟨a, l⟩
    · rw [hf] at hmem
      cases hmem
    · simp [someIfNonempty]

/-- C5: for every table, every grouping key and every numeric column, the
sum the grouping assigns to a group equals the sum of that column over
exactly the rows of the ungrouped table belonging to the group;
instantiated on the group-by-`PO Date` sums (`df_date`). -/
theorem C5_group_sum_partition :
    (∀ (κ : Type) [DecidableEq κ],
      ∀ (key : Row → κ) (val : Row → Option ℚ) (rows : List Row)
        (p : κ × List Row), p ∈ groupBy key rows →
      sumCol val p.2 = sumCol val (rows.filter (fun r => decide (key r = p.1)))) ∧
    (∀ (filtered : List Row) (e : Int × ℚ × ℚ), e ∈ df_date filtered →
      e.2.1 = sumCol (fun r => r.poQty)
          (filtered.filter (fun r => decide (r.poDate = some e.1))) ∧
      e.2.2 = sumCol (fun r => r.grnQty)
          (filtered.filter (fun r => decide (r.poDate = some e.1)))) := by
  constructor
  · intro κ _ key val rows p hp
    rw [groupBy_mem_eq_filter key rows p hp]
  · intro filtered e he
    obtain ⟨p, hp, hfe⟩ := List.mem_filterMap.mp he
    rcases hpd : p.1 with _ | d
    · rw [hpd] at hfe
      simp at hfe
    · rw [hpd] at hfe
      simp only [Option.map_some'] at hfe
      have he2 : (d, sumCol (fun r => r.poQty) p.2, sumCol (fun r => r.grnQty) p.2) = e :=
        Option.some_injective _ hfe
      have hgrp := groupBy_mem_eq_filter (fun r => r.poDate) filtered p hp
      rw [hpd] at hgrp
      subst he2
      refine ⟨?_, ?_⟩
      · show sumCol (fun r => r.poQty) p.2 =
          sumCol (fun r => r.poQty)
            (filtered.filter (fun r => decide (r.poDate = some d)))
        rw [hgrp]
      · show sumCol (fun r => r.grnQty) p.2 =
          sumCol (fun r => r.grnQty)
            (filtered.filter (fun r => decide (r.poDate = some d)))
        rw [hgrp]

/-- Witness for C5 at a concrete table: the group of category `some "A"`
holds exactly the rows of category A, and its PO-quantity sum equals the
sum over those rows. -/
theorem C5_witness :
    ((some "A", [exRow1]) : Option String × List Row) ∈
      groupBy (fun r => r.category) [exRow1, exRow2] ∧
    sumCol (fun r => r.poQty) [exRow1] =
      sumCol (fun r => r.poQty)
        ([exRow1, exRow2].filter (fun r => decide (r.category = some "A"))) := by
  have hmem : ((some "A", [exRow1]) : Option String × List Row) ∈
      groupBy (fun r => r.category) [exRow1, exRow2] := by decide
  exact ⟨hmem, C5_group_sum_partition.1 (Option String) (fun r => r.category)
    (fun r => r.poQty) [exRow1, exRow2] (some "A", [exRow1]) hmem⟩

/-- C7: the vendor/warehouse breakdown table has exactly one row per
distinct `(Category, Vendor, Warehouse)` triple of values occurring in
the filtered table; its `PO Qty` and `GRN Qty` are the sums and its `QFR`
and `LFR` the means (scaled by 100) of those columns over the triple's
rows. -/
theorem C7_group_df_breakdown (filtered : List Row) :
    ((group_df filtered).map keyG).Nodup ∧
    (∀ k : String × String × String,
      (∃ g ∈ group_df filtered, keyG g = k) ↔ ∃ r ∈ filtered, keyOf r = some k) ∧
    (∀ g ∈ group_df filtered,
      g.poQty = sumCol (fun r => r.poQty)
          (filtered.filter (fun r => decide (keyOf r = some (keyG g)))) ∧
      g.grnQty = sumCol (fun r => r.grnQty)
          (filtered.filter (fun r => decide (keyOf r = some (keyG g)))) ∧
      g.qfr = (meanCol (fun r => r.qfr)
          (filtered.filter (fun r => decide (keyOf r = some (keyG g))))).map
            (fun q => q * 100) ∧
      g.lfr = (meanCol (fun r => r.lfr)
          (filtered.filter (fun r => decide (keyOf r = some (keyG g))))).map
            (fun q => q * 100)) := by
  refine ⟨?_, ?_, ?_⟩
  · have h1 : (group_df filtered).map keyG =
        (groupBy keyOf filtered).filterMap (fun p => p.1) := by
      unfold group_df
      rw [List.map_filterMap]
      congr 1
      funext p
      cases hp : p.1 <;> simp [keyG, mkGroupRow]
    have h3 : (groupBy keyOf filtered).filterMap (fun p => p.1) =
        ((groupBy keyOf filtered).map Prod.fst).filterMap id := by
      rw [List.filterMap_map]
      rfl
    rw [h1, h3]
    exact (groupBy_keys_nodup keyOf filtered).filterMap
      (fun a a' b hb hb' => hb.trans hb'.symm)
  · intro k
    constructor
    · rintro ⟨g, hg, hk⟩
      obtain ⟨p, hp, hfp⟩ := List.mem_filterMap.mp hg
      rcases hq : p.1 with _ | k'
      · rw [hq] at hfp
        simp at hfp
      · rw [hq] at hfp
        simp only [Option.map_some', Option.some.injEq] at hfp
        have hkk : k' = k := by
          rw [← hk, ← hfp]
          exact rfl
        refine (groupBy_key_mem_iff keyOf filtered (some k)).mp ⟨p.2, ?_⟩
        have hpk : (some k : Option (String × String × String)) = p.1 := by
          rw [hq, hkk]
        rw [hpk]
        exact hp
    · intro hr
      obtain ⟨gg, hgg⟩ := (groupBy_key_mem_iff keyOf filtered (some k)).mpr hr
      refine ⟨mkGroupRow k gg, ?_, rfl⟩
      exact List.mem_filterMap.mpr ⟨(some k, gg), hgg, rfl⟩
  · intro g hg
    obtain ⟨p, hp, hfp⟩ := List.mem_filterMap.mp hg
    rcases hq : p.1 with _ | k
    · rw [hq] at hfp
      simp at hfp
    · rw [hq] at hfp
      simp only [Option.map_some', Option.some.injEq] at hfp
      have hgrp := groupBy_mem_eq_filter keyOf filtered p hp
      rw [hq] at hgrp
      subst hfp
      have hkg : keyG (mkGroupRow k p.2) = k := rfl
      rw [hkg]
      refine ⟨?_, ?_, ?_, ?_⟩ <;> simp [mkGroupRow, hgrp]

/-- Witness for C7 at a concrete table: the breakdown row of the triple
`("A", "V", "W")` is present and its PO quantity is the sum over that
triple's rows. -/
theorem C7_witness :
    mkGroupRow ("A", "V", "W") [exRow1] ∈ group_df [exRow1, exRow2] ∧
    (mkGroupRow ("A", "V", "W") [exRow1]).poQty =
      sumCol (fun r => r.poQty)
        ([exRow1, exRow2].filter (fun r =>
          decide (keyOf r = some (keyG (mkGroupRow ("A", "V", "W") [exRow1]))))) := by
  have hgd : group_df [exRow1, exRow2] =
      [mkGroupRow ("A", "V", "W") [exRow1], mkGroupRow ("B", "V", "W") [exRow2]] := rfl
  have hmem : mkGroupRow ("A", "V", "W") [exRow1] ∈ group_df [exRow1, exRow2] := by
    rw [hgd]
    exact List.mem_cons_self _ _
  exact ⟨hmem, ((C7_group_df_breakdown [exRow1, exRow2]).2.2 _ hmem).1⟩

end Dashboard
